import Mathlib

/-!
Shallow embedding of the grim-invoice-manager CRUD core.

Sources embedded:
* `src/server/src/schema.ts` — the invoices table (serial primary key,
  unique invoice_number, numeric(10,2) amount_due) and the wire schemas.
* `src/server/src/handlers/create_invoice.ts` — `createInvoice`.
* `src/server/src/handlers/delete_invoice.ts` — `deleteInvoice` and
  `updateInvoice` (the file carries both handler bodies).
* `src/unnamed/part_002` — `getInvoice`.
* `src/client/src/App.tsx` — `isOverdue` and `overdueInvoices`.

Modelling conventions: timestamps are integer instants (milliseconds);
the numeric(10,2) column stores an integer count of hundredths, which is
what a scale-2 fixed-precision decimal is; the decimal-string boundary
(`toString` on insert, `parseFloat` on read) composes with the column's
scale-2 rounding into `amountToCents` / `centsToNumber`. The storage
layer enforces the unique constraint on invoice_number declared in
schema.ts: a write statement commits only when the resulting table
satisfies the constraint, otherwise it fails and leaves the table
unchanged, which is the observable behaviour of the database on every
constraint-satisfying state.
-/

namespace InvoiceManager

/-- Database row of the invoices table (src/server/src/schema.ts).
The numeric(10,2) column amount_due is the integer amount_cents. -/
structure Row where
  id : Nat
  invoice_number : String
  client_name : String
  client_email : String
  amount_cents : Int
  issue_date : Int
  due_date : Int
  services_rendered : String
  paid : Bool
  created_at : Int
  updated_at : Int
deriving DecidableEq, Repr

/-- Wire-level invoice record (invoiceSchema in src/server/src/schema.ts):
`amount_due` is a number. -/
structure Invoice where
  id : Nat
  invoice_number : String
  client_name : String
  client_email : String
  amount_due : ℚ
  issue_date : Int
  due_date : Int
  services_rendered : String
  paid : Bool
  created_at : Int
  updated_at : Int
deriving DecidableEq, Repr

/-- The invoices table plus the serial id counter. -/
structure Store where
  rows : List Row
  nextId : Nat
deriving DecidableEq, Repr

/-- Rounding of a decimal to an integer, halves away from zero, as the
database performs when coercing a value into a scale-2 numeric column. -/
def roundHalfAway (x : ℚ) : ℤ :=
  if 0 ≤ x then ⌊x + 1/2⌋ else -⌊-x + 1/2⌋

/-- Storing a number into the numeric(10,2) column: `toString` keeps the
value exactly, the column keeps two fractional digits. -/
def amountToCents (q : ℚ) : ℤ :=
  roundHalfAway (q * 100)

/-- Reading the numeric column back as a number (`parseFloat` on the
decimal string). -/
def centsToNumber (c : ℤ) : ℚ :=
  (c : ℚ) / 100

/-- Conversion of a database row to the wire record, as every handler does
before returning: spread the row and replace amount_due by the parsed
number. -/
def toWire (r : Row) : Invoice :=
  { id := r.id
    invoice_number := r.invoice_number
    client_name := r.client_name
    client_email := r.client_email
    amount_due := centsToNumber r.amount_cents
    issue_date := r.issue_date
    due_date := r.due_date
    services_rendered := r.services_rendered
    paid := r.paid
    created_at := r.created_at
    updated_at := r.updated_at }

/-- createInvoiceInputSchema (src/server/src/schema.ts). -/
structure CreateInvoiceInput where
  invoice_number : String
  client_name : String
  client_email : String
  amount_due : ℚ
  issue_date : Int
  due_date : Int
  services_rendered : String
  paid : Bool
deriving DecidableEq, Repr

/-- updateInvoiceInputSchema (src/server/src/schema.ts); an optional field
that is absent from the call is `none`. -/
structure UpdateInvoiceInput where
  id : Nat
  invoice_number : Option String
  client_name : Option String
  client_email : Option String
  amount_due : Option ℚ
  issue_date : Option Int
  due_date : Option Int
  services_rendered : Option String
  paid : Option Bool
deriving DecidableEq, Repr

/-- deleteInvoiceInputSchema (src/server/src/schema.ts). -/
structure DeleteInvoiceInput where
  id : Nat
deriving DecidableEq, Repr

/-- getInvoiceInputSchema (src/server/src/schema.ts). -/
structure GetInvoiceInput where
  id : Nat
deriving DecidableEq, Repr

/-- The invoice_number column of a row list. -/
def numbersOf (rows : List Row) : List String :=
  rows.map (fun r => r.invoice_number)

/-- Row that the insert statement of createInvoice writes: the input
fields, the amount as the scale-2 decimal, the next serial id, and
created_at = updated_at = now from the column defaults. -/
def freshRow (now : Int) (input : CreateInvoiceInput) (s : Store) : Row :=
  { id := s.nextId
    invoice_number := input.invoice_number
    client_name := input.client_name
    client_email := input.client_email
    amount_cents := amountToCents input.amount_due
    issue_date := input.issue_date
    due_date := input.due_date
    services_rendered := input.services_rendered
    paid := input.paid
    created_at := now
    updated_at := now }

/-- createInvoice (src/server/src/handlers/create_invoice.ts): advisory
select on invoice_number, error `already exists` on a hit, otherwise
insert with created_at = updated_at = now; the insert is subject to the
unique constraint of schema.ts. Returns the result together with the
table state after the call. -/
def createInvoice (now : Int) (input : CreateInvoiceInput) (s : Store) :
    Except String Invoice × Store :=
  if (s.rows.filter (fun r => r.invoice_number == input.invoice_number)).length > 0 then
    (Except.error ("Invoice number " ++ input.invoice_number ++ " already exists"), s)
  else
    let row : Row := freshRow now input s
    if (numbersOf (s.rows ++ [row])).Nodup then
      (Except.ok (toWire row), { rows := s.rows ++ [row], nextId := s.nextId + 1 })
    else
      (Except.error "duplicate key value violates unique constraint", s)

/-- Field-by-field merge of updateInvoice: updated_at is always set to
now, every other field is overwritten only when the input supplies it;
id and created_at are not part of the update object. -/
def applyUpdate (now : Int) (input : UpdateInvoiceInput) (r : Row) : Row :=
  { r with
    updated_at := now
    invoice_number := input.invoice_number.getD r.invoice_number
    client_name := input.client_name.getD r.client_name
    client_email := input.client_email.getD r.client_email
    amount_cents :=
      match input.amount_due with
      | some q => amountToCents q
      | none => r.amount_cents
    issue_date := input.issue_date.getD r.issue_date
    due_date := input.due_date.getD r.due_date
    services_rendered := input.services_rendered.getD r.services_rendered
    paid := input.paid.getD r.paid }

/-- updateInvoice (second handler body in
src/server/src/handlers/delete_invoice.ts): existence check by id, then
one update statement on the matching rows, subject to the unique
constraint; returns the first updated row, amount parsed back to a
number. -/
def updateInvoice (now : Int) (input : UpdateInvoiceInput) (s : Store) :
    Except String Invoice × Store :=
  match s.rows.filter (fun r => r.id == input.id) with
  | [] =>
    (Except.error ("Invoice with ID " ++ toString input.id ++ " not found"), s)
  | r :: _ =>
    let newRows :=
      s.rows.map (fun x => if x.id == input.id then applyUpdate now input x else x)
    if (numbersOf newRows).Nodup then
      (Except.ok (toWire (applyUpdate now input r)), { rows := newRows, nextId := s.nextId })
    else
      (Except.error "duplicate key value violates unique constraint", s)

/-- deleteInvoice (src/server/src/handlers/delete_invoice.ts): existence
check by id, then one delete statement; returns the success flag. -/
def deleteInvoice (input : DeleteInvoiceInput) (s : Store) :
    Except String Bool × Store :=
  if (s.rows.filter (fun r => r.id == input.id)).length = 0 then
    (Except.error ("Invoice with ID " ++ toString input.id ++ " not found"), s)
  else
    (Except.ok true, { rows := s.rows.filter (fun r => !(r.id == input.id)), nextId := s.nextId })

/-- getInvoice (src/unnamed/part_002): select by id, `not found` error on
an empty result, otherwise the first row with amount parsed back to a
number. -/
def getInvoice (input : GetInvoiceInput) (s : Store) : Except String Invoice :=
  match s.rows.filter (fun r => r.id == input.id) with
  | [] => Except.error ("Invoice with ID " ++ toString input.id ++ " not found")
  | r :: _ => Except.ok (toWire r)

/-- Modelled from the spec: the handler file
src/server/src/handlers/get_invoices.ts is absent from the sources (only
its tests and its caller in index.ts are present). Per the spec, get_all
returns every record ordered newest-created first, amount normalized to
numeric. -/
def getInvoices (s : Store) : List Invoice :=
  (s.rows.mergeSort (fun a b => decide (b.created_at ≤ a.created_at))).map toWire

/-- isOverdue (src/client/src/App.tsx): not paid and the current time is
past the due date. -/
def isOverdue (now dueDate : Int) (paid : Bool) : Bool :=
  (!paid) && decide (dueDate < now)

/-- overdueInvoices (src/client/src/App.tsx): the displayed invoices that
are overdue now. -/
def overdueInvoices (now : Int) (invoices : List Invoice) : List Invoice :=
  invoices.filter (fun inv => isOverdue now inv.due_date inv.paid)

/-- Serial-primary-key invariant of the table: row ids are pairwise
distinct and below the id counter. -/
def Store.WF (s : Store) : Prop :=
  (s.rows.map (fun r => r.id)).Nodup ∧ ∀ r ∈ s.rows, r.id < s.nextId

/-- Uniqueness of invoice_number across the table, the constraint of
schema.ts. -/
def UniqueNumbers (s : Store) : Prop :=
  (numbersOf s.rows).Nodup

/-- One call against the operation surface of index.ts that can change
the table. -/
inductive Op where
  | create (now : Int) (input : CreateInvoiceInput)
  | update (now : Int) (input : UpdateInvoiceInput)
  | delete (input : DeleteInvoiceInput)
deriving DecidableEq, Repr

/-- Table state after one operation; a failed call leaves the state the
call returned, which the handlers keep equal to the state before. -/
def applyOp (s : Store) : Op → Store
  | Op.create now input => (createInvoice now input s).2
  | Op.update now input => (updateInvoice now input s).2
  | Op.delete input => (deleteInvoice input s).2

/-- Table state after a sequence of operations. -/
def applyOps (s : Store) (ops : List Op) : Store :=
  ops.foldl applyOp s

/- Concrete sample data for the closed instances below. -/

/-- Sample row number one. -/
def sampleRow : Row :=
  { id := 1
    invoice_number := "INV-001"
    client_name := "Test Client"
    client_email := "test@example.com"
    amount_cents := 15075
    issue_date := 0
    due_date := 10
    services_rendered := "Web development services"
    paid := false
    created_at := 5
    updated_at := 5 }

/-- Sample row number two. -/
def sampleRow2 : Row :=
  { id := 2
    invoice_number := "INV-002"
    client_name := "Second Client"
    client_email := "second@example.com"
    amount_cents := 200000
    issue_date := 1
    due_date := 20
    services_rendered := "Design consultation"
    paid := true
    created_at := 6
    updated_at := 6 }

/-- Sample table holding the two sample rows. -/
def sampleStore : Store :=
  { rows := [sampleRow, sampleRow2], nextId := 3 }

/-- Sample create input reusing the number of sampleRow. -/
def sampleCreateDup : CreateInvoiceInput :=
  { invoice_number := "INV-001"
    client_name := "Someone Else"
    client_email := "else@example.com"
    amount_due := 150
    issue_date := 2
    due_date := 30
    services_rendered := "Anything"
    paid := false }

/-- Sample update input supplying no optional field. -/
def sampleEmptyUpdate : UpdateInvoiceInput :=
  { id := 1
    invoice_number := none
    client_name := none
    client_email := none
    amount_due := none
    issue_date := none
    due_date := none
    services_rendered := none
    paid := none }

/-- Sample partial update touching two fields of row one. -/
def sampleUpdate : UpdateInvoiceInput :=
  { id := 1
    invoice_number := none
    client_name := some "Partially Updated Client"
    client_email := none
    amount_due := none
    issue_date := none
    due_date := none
    services_rendered := none
    paid := some true }

/-- Sample table after the sample partial update at instant 9. -/
def sampleUpdatedStore : Store :=
  (updateInvoice 9 sampleUpdate sampleStore).2

/-- Sample create input with a fresh number. -/
def sampleCreate : CreateInvoiceInput :=
  { invoice_number := "INV-003"
    client_name := "Bob Wilson"
    client_email := "bob@example.com"
    amount_due := 150
    issue_date := 2
    due_date := 30
    services_rendered := "Bug fixes and maintenance"
    paid := false }

/-- Row that the sample create inserts at instant 8 into the sample
table. -/
def sampleCreatedRow : Row :=
  { id := 3
    invoice_number := "INV-003"
    client_name := "Bob Wilson"
    client_email := "bob@example.com"
    amount_cents := amountToCents sampleCreate.amount_due
    issue_date := 2
    due_date := 30
    services_rendered := "Bug fixes and maintenance"
    paid := false
    created_at := 8
    updated_at := 8 }

/-- Sample table after the sample create at instant 8. -/
def sampleStoreAfterCreate : Store :=
  (createInvoice 8 sampleCreate sampleStore).2

/-- Sample operation sequence exercising all three mutations. -/
def sampleOps : List Op :=
  [Op.create 8 sampleCreate, Op.update 9 sampleUpdate, Op.delete { id := 2 }]

/-- Rounding a number to 2 decimal places, written from the words of the
spec, to be compared with what the storage pipeline computes. -/
def roundTo2 (q : ℚ) : ℚ :=
  (round (q * 100) : ℚ) / 100

section Claims

open List

/-- C1: create with an invoice_number already present fails with a
message that matches "already exists" and returns the table unchanged,
so no row is inserted and the existing rows keep all their field
values. -/
theorem createInvoice_duplicate_number_fails (now : Int) (input : CreateInvoiceInput)
    (s : Store) (r : Row) (hr : r ∈ s.rows)
    (hn : r.invoice_number = input.invoice_number) :
    (∃ p, (createInvoice now input s).1 = Except.error (p ++ "already exists")) ∧
    (createInvoice now input s).2 = s := by
  have hmem : r ∈ s.rows.filter (fun x => x.invoice_number == input.invoice_number) :=
    List.mem_filter.mpr ⟨hr, by simp [hn]⟩
  have hlen : (s.rows.filter (fun x => x.invoice_number == input.invoice_number)).length > 0 :=
    List.length_pos.mpr (List.ne_nil_of_mem hmem)
  have hs : ("Invoice number " ++ input.invoice_number ++ " ") ++ "already exists"
      = "Invoice number " ++ input.invoice_number ++ " already exists" := by
    rw [String.append_assoc]; rfl
  refine ⟨⟨"Invoice number " ++ input.invoice_number ++ " ", ?_⟩, ?_⟩
  · rw [hs, createInvoice, if_pos hlen]
  · rw [createInvoice, if_pos hlen]

/-- C1 witness: the duplicate-create failure at the sample table. -/
theorem createInvoice_duplicate_number_fails_witness :
    (∃ p, (createInvoice 7 sampleCreateDup sampleStore).1 = Except.error (p ++ "already exists")) ∧
    (createInvoice 7 sampleCreateDup sampleStore).2 = sampleStore :=
  createInvoice_duplicate_number_fails 7 sampleCreateDup sampleStore sampleRow
    (by decide) (by decide)

/-- C9: update on an id with no matching row fails with a message that
matches "not found", and the table is returned unchanged. -/
theorem updateInvoice_missing_id_fails (now : Int) (input : UpdateInvoiceInput)
    (s : Store) (h : ∀ r ∈ s.rows, r.id ≠ input.id) :
    (∃ p, (updateInvoice now input s).1 = Except.error (p ++ "not found")) ∧
    (updateInvoice now input s).2 = s := by
  have hf : s.rows.filter (fun r => r.id == input.id) = [] :=
    List.filter_eq_nil_iff.mpr (fun r hr => by simp [h r hr])
  have hs : ("Invoice with ID " ++ toString input.id ++ " ") ++ "not found"
      = "Invoice with ID " ++ toString input.id ++ " not found" := by
    rw [String.append_assoc]; rfl
  refine ⟨⟨"Invoice with ID " ++ toString input.id ++ " ", ?_⟩, ?_⟩
  · rw [hs, updateInvoice, hf]
  · rw [updateInvoice, hf]

/-- C9 witness: the not-found update failure at the sample table. -/
theorem updateInvoice_missing_id_fails_witness :
    (∃ p, (updateInvoice 7 { sampleEmptyUpdate with id := 999 } sampleStore).1 =
      Except.error (p ++ "not found")) ∧
    (updateInvoice 7 { sampleEmptyUpdate with id := 999 } sampleStore).2 = sampleStore :=
  updateInvoice_missing_id_fails 7 { sampleEmptyUpdate with id := 999 } sampleStore
    (by decide)

/-- C10: an invoice is counted overdue exactly when it is unpaid and the
current time is strictly past its due date; at the boundary, an unpaid
invoice due exactly now is not overdue, and a paid invoice is never
overdue. -/
theorem overdue_iff_unpaid_and_strictly_past (now : Int) (l : List Invoice) (inv : Invoice) :
    (isOverdue now inv.due_date inv.paid = true ↔ (inv.paid = false ∧ inv.due_date < now)) ∧
    (inv ∈ overdueInvoices now l ↔ (inv ∈ l ∧ inv.paid = false ∧ inv.due_date < now)) := by
  constructor
  · simp [isOverdue, Bool.not_eq_true']
  · simp [overdueInvoices, List.mem_filter, isOverdue, Bool.not_eq_true', and_assoc]

/-- Helper: the not-found message splits off its "not found" tail. -/
theorem notFound_split (n : Nat) :
    ("Invoice with ID " ++ toString n ++ " ") ++ "not found"
      = "Invoice with ID " ++ toString n ++ " not found" := by
  rw [String.append_assoc]; rfl

/-- Helper: inversion of a successful updateInvoice call. -/
theorem updateInvoice_ok_inversion (now : Int) (input : UpdateInvoiceInput) (s : Store)
    (inv : Invoice) (s' : Store)
    (h : updateInvoice now input s = (Except.ok inv, s')) :
    ∃ r t, s.rows.filter (fun x => x.id == input.id) = r :: t ∧
      inv = toWire (applyUpdate now input r) ∧
      s'.rows = s.rows.map (fun x => if x.id == input.id then applyUpdate now input x else x) ∧
      s'.nextId = s.nextId := by
  rw [updateInvoice] at h
  split at h
  · exact absurd h (by simp)
  · next r t hf =>
    dsimp only at h
    split at h
    · rw [Prod.mk.injEq, Except.ok.injEq] at h
      exact ⟨r, t, hf, h.1.symm, by rw [← h.2], by rw [← h.2]⟩
    · exact absurd h (by simp)

/-- Helper: every single operation preserves uniqueness of
invoice_number. -/
theorem uniqueNumbers_applyOp (op : Op) (s : Store) (h : UniqueNumbers s) :
    UniqueNumbers (applyOp s op) := by
  cases op with
  | create now input =>
    simp only [applyOp, createInvoice]
    split
    · exact h
    · split
      · next hnd => exact hnd
      · exact h
  | update now input =>
    simp only [applyOp, updateInvoice]
    split
    · exact h
    · split
      · next hnd => exact hnd
      · exact h
  | delete input =>
    simp only [applyOp, deleteInvoice]
    split
    · exact h
    · exact h.sublist (List.Sublist.map _ (List.filter_sublist _))

/-- C2: starting from a table in which no two rows share an
invoice_number, every sequence of create, update and delete operations
leaves a table in which no two rows share an invoice_number. -/
theorem uniqueNumbers_invariant (s : Store) (ops : List Op) (h : UniqueNumbers s) :
    UniqueNumbers (applyOps s ops) := by
  induction ops generalizing s with
  | nil => exact h
  | cons op rest ih => exact ih _ (uniqueNumbers_applyOp op s h)

/-- C2 witness: the invariant at the sample table under a concrete
create, update, delete sequence. -/
theorem uniqueNumbers_invariant_witness :
    UniqueNumbers (applyOps sampleStore sampleOps) :=
  uniqueNumbers_invariant sampleStore sampleOps
    (by show (numbersOf sampleStore.rows).Nodup; decide)

/-- C3: a successful update rewrites exactly the rows with the given id
through the field merge, and the merge keeps id and created_at, sets
updated_at to the call instant, overwrites exactly the supplied fields
and keeps every absent field at its stored value. -/
theorem updateInvoice_frame (now : Int) (input : UpdateInvoiceInput) (s : Store)
    (inv : Invoice) (s' : Store)
    (h : updateInvoice now input s = (Except.ok inv, s')) :
    s'.rows = s.rows.map (fun x => if x.id == input.id then applyUpdate now input x else x) ∧
    ∀ x : Row,
      (applyUpdate now input x).id = x.id ∧
      (applyUpdate now input x).created_at = x.created_at ∧
      (applyUpdate now input x).updated_at = now ∧
      (applyUpdate now input x).invoice_number = input.invoice_number.getD x.invoice_number ∧
      (applyUpdate now input x).client_name = input.client_name.getD x.client_name ∧
      (applyUpdate now input x).client_email = input.client_email.getD x.client_email ∧
      (input.amount_due = none → (applyUpdate now input x).amount_cents = x.amount_cents) ∧
      (∀ q, input.amount_due = some q →
        (applyUpdate now input x).amount_cents = amountToCents q) ∧
      (applyUpdate now input x).issue_date = input.issue_date.getD x.issue_date ∧
      (applyUpdate now input x).due_date = input.due_date.getD x.due_date ∧
      (applyUpdate now input x).services_rendered
        = input.services_rendered.getD x.services_rendered ∧
      (applyUpdate now input x).paid = input.paid.getD x.paid := by
  obtain ⟨r, t, hf, hinv, hrows, hnext⟩ := updateInvoice_ok_inversion now input s inv s' h
  refine ⟨hrows, fun x => ⟨rfl, rfl, rfl, rfl, rfl, rfl, ?_, ?_, rfl, rfl, rfl, rfl⟩⟩
  · intro hnone; simp [applyUpdate, hnone]
  · intro q hq; simp [applyUpdate, hq]

/-- C3 witness: the frame property at the sample partial update. -/
theorem updateInvoice_frame_witness :
    sampleUpdatedStore.rows = sampleStore.rows.map
      (fun x => if x.id == sampleUpdate.id then applyUpdate 9 sampleUpdate x else x) :=
  (updateInvoice_frame 9 sampleUpdate sampleStore
    (toWire (applyUpdate 9 sampleUpdate sampleRow)) sampleUpdatedStore rfl).1

/-- C5 counterexample: an update performed at the very instant of the
prior write succeeds but leaves updated_at equal to, not strictly
greater than, its prior value. -/
theorem updateInvoice_same_instant_counterexample :
    (updateInvoice 5 sampleEmptyUpdate sampleStore).1 =
      Except.ok (toWire (applyUpdate 5 sampleEmptyUpdate sampleRow)) ∧
    sampleRow.updated_at = 5 ∧
    ¬ (toWire (applyUpdate 5 sampleEmptyUpdate sampleRow)).updated_at
        > sampleRow.updated_at := by
  refine ⟨rfl, rfl, ?_⟩
  decide

/-- C5 (amended): a successful update sets updated_at to the instant of
the call; it is strictly greater than a matching row's prior updated_at
whenever the call happens strictly later than that prior write. -/
theorem updateInvoice_updated_at (now : Int) (input : UpdateInvoiceInput) (s : Store)
    (inv : Invoice) (s' : Store)
    (h : updateInvoice now input s = (Except.ok inv, s')) :
    inv.updated_at = now ∧
    ∀ r ∈ s.rows, r.id = input.id → r.updated_at < now → r.updated_at < inv.updated_at := by
  obtain ⟨r, t, hf, hinv, hrows, hnext⟩ := updateInvoice_ok_inversion now input s inv s' h
  have h1 : inv.updated_at = now := by rw [hinv]; rfl
  exact ⟨h1, fun x _ _ hlt => h1 ▸ hlt⟩

/-- C5 witness: the refreshed timestamp at the sample update at a
strictly later instant. -/
theorem updateInvoice_updated_at_witness :
    (toWire (applyUpdate 9 sampleUpdate sampleRow)).updated_at = 9 ∧
    sampleRow.updated_at < (toWire (applyUpdate 9 sampleUpdate sampleRow)).updated_at := by
  have h := updateInvoice_updated_at 9 sampleUpdate sampleStore
    (toWire (applyUpdate 9 sampleUpdate sampleRow)) sampleUpdatedStore rfl
  exact ⟨h.1, h.2 sampleRow (by decide) (by decide) (by decide)⟩

/-- C7: deleting an existing id succeeds with the success flag, removes
exactly the rows with that id, a subsequent get-one on that id fails
with a message matching "not found", and every other row is kept with
all its field values. -/
theorem deleteInvoice_removes (input : DeleteInvoiceInput) (s : Store) (r : Row)
    (hr : r ∈ s.rows) (hid : r.id = input.id) :
    (deleteInvoice input s).1 = Except.ok true ∧
    (deleteInvoice input s).2.rows = s.rows.filter (fun x => !(x.id == input.id)) ∧
    (∃ p, getInvoice { id := input.id } (deleteInvoice input s).2
      = Except.error (p ++ "not found")) ∧
    ∀ x ∈ s.rows, x.id ≠ input.id → x ∈ (deleteInvoice input s).2.rows := by
  have hmem : r ∈ s.rows.filter (fun x => x.id == input.id) :=
    List.mem_filter.mpr ⟨hr, by simp [hid]⟩
  have hne : ¬ (s.rows.filter (fun x => x.id == input.id)).length = 0 := by
    simp only [List.length_eq_zero]
    exact List.ne_nil_of_mem hmem
  have hst : (deleteInvoice input s).2
      = { rows := s.rows.filter (fun x => !(x.id == input.id)), nextId := s.nextId } := by
    rw [deleteInvoice, if_neg hne]
  have hnil : (s.rows.filter (fun x => !(x.id == input.id))).filter
      (fun x => x.id == input.id) = [] := by
    refine List.filter_eq_nil_iff.mpr (fun a ha => ?_)
    have := (List.mem_filter.mp ha).2
    simp only [Bool.not_eq_eq_eq_not, Bool.not_true, beq_eq_false_iff_ne] at this
    simp [this]
  refine ⟨?_, ?_, ?_, ?_⟩
  · rw [deleteInvoice, if_neg hne]
  · rw [hst]
  · refine ⟨"Invoice with ID " ++ toString input.id ++ " ", ?_⟩
    rw [notFound_split, hst, getInvoice]
    simp only [hnil]
  · intro x hx hxid
    rw [hst]
    exact List.mem_filter.mpr ⟨hx, by simp [hxid]⟩

/-- C7 witness: deletion of sample row two. -/
theorem deleteInvoice_removes_witness :
    (deleteInvoice { id := 2 } sampleStore).1 = Except.ok true ∧
    (deleteInvoice { id := 2 } sampleStore).2.rows
      = sampleStore.rows.filter (fun x => !(x.id == 2)) ∧
    (∃ p, getInvoice { id := 2 } (deleteInvoice { id := 2 } sampleStore).2
      = Except.error (p ++ "not found")) ∧
    ∀ x ∈ sampleStore.rows, x.id ≠ 2 → x ∈ (deleteInvoice { id := 2 } sampleStore).2.rows :=
  deleteInvoice_removes { id := 2 } sampleStore sampleRow2 (by decide) (by decide)

/-- C8: get-one fails exactly when no row carries the requested id,
otherwise it returns the first matching stored row with amount_due read
back as a number and every other field unchanged. -/
theorem getInvoice_spec (input : GetInvoiceInput) (s : Store) :
    ((∃ msg, getInvoice input s = Except.error msg) ↔ ∀ r ∈ s.rows, r.id ≠ input.id) ∧
    (∀ r t, s.rows.filter (fun x => x.id == input.id) = r :: t →
      getInvoice input s = Except.ok (toWire r)) ∧
    ∀ r : Row,
      (toWire r).amount_due = centsToNumber r.amount_cents ∧
      (toWire r).id = r.id ∧
      (toWire r).invoice_number = r.invoice_number ∧
      (toWire r).client_name = r.client_name ∧
      (toWire r).client_email = r.client_email ∧
      (toWire r).issue_date = r.issue_date ∧
      (toWire r).due_date = r.due_date ∧
      (toWire r).services_rendered = r.services_rendered ∧
      (toWire r).paid = r.paid ∧
      (toWire r).created_at = r.created_at ∧
      (toWire r).updated_at = r.updated_at := by
  refine ⟨⟨?_, ?_⟩, ?_, ?_⟩
  · rintro ⟨msg, hmsg⟩ r hr hidr
    have hmem : r ∈ s.rows.filter (fun x => x.id == input.id) :=
      List.mem_filter.mpr ⟨hr, by simp [hidr]⟩
    rw [getInvoice] at hmsg
    cases hf : s.rows.filter (fun x => x.id == input.id) with
    | nil => rw [hf] at hmem; exact absurd hmem (List.not_mem_nil r)
    | cons a t => rw [hf] at hmsg; exact absurd hmsg (by simp)
  · intro hall
    cases hf : s.rows.filter (fun x => x.id == input.id) with
    | nil => exact ⟨_, by rw [getInvoice, hf]⟩
    | cons a t =>
      have hmem : a ∈ s.rows.filter (fun x => x.id == input.id) := by
        rw [hf]; exact List.mem_cons_self a t
      obtain ⟨ha, hb⟩ := List.mem_filter.mp hmem
      exact absurd (by simpa using hb) (hall a ha)
  · intro r t hf
    rw [getInvoice, hf]
  · intro r
    exact ⟨rfl, rfl, rfl, rfl, rfl, rfl, rfl, rfl, rfl, rfl, rfl⟩

/-- C8 witness: the not-found direction at an id absent from the sample
table. -/
theorem getInvoice_spec_witness :
    ∃ msg, getInvoice { id := 999 } sampleStore = Except.error msg :=
  (getInvoice_spec { id := 999 } sampleStore).1.mpr (by decide)

/-- Helper: get-one returns the first row the id select produces. -/
theorem getInvoice_of_filter_cons (input : GetInvoiceInput) (s : Store) (r : Row)
    (t : List Row) (hf : s.rows.filter (fun x => x.id == input.id) = r :: t) :
    getInvoice input s = Except.ok (toWire r) := by
  rw [getInvoice, hf]

/-- Helper: inversion of a successful createInvoice call. -/
theorem createInvoice_ok_inversion (now : Int) (input : CreateInvoiceInput) (s : Store)
    (inv : Invoice) (s' : Store)
    (h : createInvoice now input s = (Except.ok inv, s')) :
    inv = toWire (freshRow now input s) ∧
    s'.rows = s.rows ++ [freshRow now input s] ∧
    s'.nextId = s.nextId + 1 := by
  rw [createInvoice] at h
  split at h
  · exact absurd h (by simp)
  · dsimp only at h
    split at h
    · rw [Prod.mk.injEq, Except.ok.injEq] at h
      exact ⟨h.1.symm, by rw [← h.2], by rw [← h.2]⟩
    · exact absurd h (by simp)

/-- C4: after a successful create from a positive input amount, get-one
on the new id returns the input amount rounded to 2 decimal places,
through the scale-2 decimal column and the parse back to a number. -/
theorem createInvoice_get_amount (now : Int) (input : CreateInvoiceInput) (s : Store)
    (inv : Invoice) (s' : Store) (hwf : s.WF) (hpos : 0 < input.amount_due)
    (h : createInvoice now input s = (Except.ok inv, s')) :
    ∃ w, getInvoice { id := inv.id } s' = Except.ok w ∧
      w.amount_due = roundTo2 input.amount_due := by
  obtain ⟨h1, h2, h3⟩ := createInvoice_ok_inversion now input s inv s' h
  have hid : inv.id = s.nextId := by rw [h1]; rfl
  have ha : s.rows.filter (fun x => x.id == inv.id) = [] := by
    refine List.filter_eq_nil_iff.mpr (fun x hx => ?_)
    have hlt := hwf.2 x hx
    simp only [hid, beq_iff_eq]
    omega
  have hfilt : s'.rows.filter (fun x => x.id == inv.id)
      = [freshRow now input s] := by
    rw [h2, List.filter_append, ha, List.nil_append]
    simp [hid, freshRow]
  refine ⟨toWire (freshRow now input s),
    getInvoice_of_filter_cons { id := inv.id } s' (freshRow now input s) [] hfilt, ?_⟩
  show centsToNumber (amountToCents input.amount_due) = roundTo2 input.amount_due
  rw [centsToNumber, amountToCents, roundHalfAway, roundTo2,
    if_pos (mul_nonneg hpos.le (by norm_num)), round_eq]

/-- C4 witness: the stored and re-read amount of the sample create. -/
theorem createInvoice_get_amount_witness :
    ∃ w, getInvoice { id := (toWire sampleCreatedRow).id } sampleStoreAfterCreate
        = Except.ok w ∧
      w.amount_due = roundTo2 sampleCreate.amount_due :=
  createInvoice_get_amount 8 sampleCreate sampleStore (toWire sampleCreatedRow)
    sampleStoreAfterCreate ⟨by decide, by decide⟩ (by norm_num [sampleCreate]) rfl

/-- C6: get-all on the empty table returns the empty list, and on every
table it returns exactly the stored rows, newest created_at first. -/
theorem getInvoices_ordering :
    getInvoices { rows := [], nextId := 1 } = [] ∧
    ∀ s : Store, (getInvoices s).Perm (s.rows.map toWire) ∧
      (getInvoices s).Pairwise (fun a b => b.created_at ≤ a.created_at) := by
  refine ⟨by simp [getInvoices], fun s => ⟨?_, ?_⟩⟩
  · exact List.Perm.map toWire (List.mergeSort_perm s.rows _)
  · show ((s.rows.mergeSort (fun a b => decide (b.created_at ≤ a.created_at))).map
      toWire).Pairwise (fun a b => b.created_at ≤ a.created_at)
    refine List.Pairwise.map
      (R := fun a b : Row => decide (b.created_at ≤ a.created_at) = true) toWire ?_ ?_
    · intro a b hab
      simpa using hab
    · apply List.sorted_mergeSort
      · intro a b c hab hbc
        simp only [decide_eq_true_eq] at *
        omega
      · intro a b
        simp only [Bool.or_eq_true, decide_eq_true_eq]
        omega

end Claims

end InvoiceManager
